import Mathlib

/-!
Verification of the Flask hello-world service (`app/app.py`) and its test
coverage validator (`scripts/validate_test_coverage.py`).

The Python code is shallowly embedded: the validator's string scanning is
modelled character by character on `List Char`, the expected-test table is
transcribed verbatim, and the Flask routes become pure functions from the
process state (the request counter, the start timestamp, the current time)
to responses and structured log records.
-/

set_option maxRecDepth 400000

namespace Validator

/-- Python `str.split(sep)` for a one-character separator: splits into the
(possibly empty) segments between occurrences of the separator. -/
def splitOnChar (sep : Char) : List Char → List (List Char)
  | [] => [[]]
  | c :: cs =>
    match splitOnChar sep cs with
    | [] => [[]]
    | r :: rs => if c = sep then [] :: r :: rs else (c :: r) :: rs

/-- The characters Python's `str.strip()` removes (ASCII whitespace). -/
def pyIsSpace (c : Char) : Bool :=
  c = ' ' || c = '\t' || c = '\n' || c = '\r' || c = Char.ofNat 11 || c = Char.ofNat 12

/-- Drop leading whitespace characters. -/
def dropLeadingSpace : List Char → List Char
  | [] => []
  | c :: cs => if pyIsSpace c then dropLeadingSpace cs else c :: cs

/-- Python `str.strip()`: remove whitespace from both ends. -/
def pyStrip (cs : List Char) : List Char :=
  ((dropLeadingSpace ((dropLeadingSpace cs).reverse)).reverse)

/-- Python `str.startswith(p)`. -/
def startsWithChars : List Char → List Char → Bool
  | [], _ => true
  | _ :: _, [] => false
  | p :: ps, c :: cs => p = c && startsWithChars ps cs

/-- The part of the string before the first occurrence of `sep`
(Python `line.split(sep)[0]`). -/
def takeBefore (sep : Char) : List Char → List Char
  | [] => []
  | c :: cs => if c = sep then [] else c :: takeBefore sep cs

/-- Python `str.replace('def ', '')`: left-to-right removal of every
non-overlapping occurrence of `"def "`. -/
def replaceDefSpace : List Char → List Char
  | 'd' :: 'e' :: 'f' :: ' ' :: cs => replaceDefSpace cs
  | c :: cs => c :: replaceDefSpace cs
  | [] => []

/-- `line.split('(')[0].replace('def ', '')` from `find_implemented_tests`. -/
def extractName (line : List Char) : List Char :=
  replaceDefSpace (takeBefore '(' line)

/-- `find_implemented_tests`, applied to the content of the test file:
scan each line, strip it, keep the names of lines starting with
`def test_`. -/
def findImplementedTests (content : List Char) : List String :=
  ((splitOnChar '\n' content).map pyStrip).filterMap (fun line =>
    if startsWithChars "def test_".data line then some (String.mk (extractName line))
    else none)

/-- One entry of the `EXPECTED_TESTS` table. -/
structure CategoryData where
  count : Nat
  tests : List String
  description : String
deriving Repr, DecidableEq

/-- The hardcoded `EXPECTED_TESTS` inventory, transcribed from the script. -/
def EXPECTED_TESTS : List (String × CategoryData) :=
  [ ("root_endpoint",
     { count := 4,
       tests :=
        [ "test_home_returns_200_ok",
          "test_home_response_content",
          "test_response_latency",
          "test_invalid_route_returns_404" ],
       description := "Root endpoint (/) tests" }),
    ("health_endpoint",
     { count := 9,
       tests :=
        [ "test_health_endpoint_returns_200",
          "test_health_endpoint_content",
          "test_health_endpoint_performance",
          "test_health_endpoint_cache_control",
          "test_health_endpoint_headers",
          "test_health_endpoint_http_methods",
          "test_health_endpoint_consistency",
          "test_health_endpoint_no_side_effects",
          "test_health_vs_root_endpoint_independence" ],
       description := "Health endpoint (/health) tests - liveness probe" }),
    ("ready_endpoint",
     { count := 9,
       tests :=
        [ "test_ready_endpoint_returns_200",
          "test_ready_endpoint_content",
          "test_ready_endpoint_performance",
          "test_ready_endpoint_cache_control",
          "test_ready_endpoint_cache_control_detailed",
          "test_ready_endpoint_http_methods",
          "test_ready_endpoint_consistency",
          "test_ready_endpoint_no_side_effects",
          "test_ready_vs_health_independence" ],
       description := "Ready endpoint (/ready) tests - readiness probe" }) ]

/-- `TOTAL_EXPECTED = sum(category["count"] for category in EXPECTED_TESTS.values())`. -/
def TOTAL_EXPECTED : Nat :=
  (EXPECTED_TESTS.map (fun c => c.2.count)).sum

/-- The union of every category's expected test names
(`all_expected` in `validate_coverage`), kept as a list in table order. -/
def allExpectedList : List String :=
  (EXPECTED_TESTS.map (fun c => c.2.tests)).flatten

/-- The per-category entry of `categories_status` in `validate_coverage`.
Python stores the missing names as a set; since each category's expected
list has no duplicates, we keep them as a list in table order (set
iteration order is unspecified in Python, and only membership and size
are ever consumed). -/
structure CategoryStatus where
  expected : Nat
  implemented : Nat
  missing : List String
  description : String
deriving Repr, DecidableEq

/-- `len(set(category_data["tests"]))`: the number of distinct expected
names in a category. -/
def categoryExpected (c : CategoryData) : Nat :=
  c.tests.dedup.length

/-- `set(test for test in implemented if test in expected_tests)`:
the distinct expected names of the category that are declared. -/
def categoryImplemented (impl : List String) (c : CategoryData) : List String :=
  c.tests.dedup.filter (fun t => decide (t ∈ impl))

/-- `expected_tests - implemented_in_category`: the distinct expected
names of the category that are not declared. -/
def categoryMissing (impl : List String) (c : CategoryData) : List String :=
  c.tests.dedup.filter (fun t => decide (t ∉ impl))

/-- The `categories_status` dictionary built by the per-category loop. -/
def categoriesStatus (impl : List String) : List (String × CategoryStatus) :=
  EXPECTED_TESTS.map (fun c =>
    (c.1,
     { expected := categoryExpected c.2,
       implemented := (categoryImplemented impl c.2).length,
       missing := categoryMissing impl c.2,
       description := c.2.description }))

/-- `missing_tests`: the concatenation, category by category, of each
category's missing names (`missing_tests.extend(missing_in_category)`). -/
def missingTests (impl : List String) : List String :=
  (EXPECTED_TESTS.map (fun c => categoryMissing impl c.2)).flatten

/-- `extra_tests = [test for test in implemented if test not in all_expected]`. -/
def extraTests (impl : List String) : List String :=
  impl.filter (fun t => decide (t ∉ allExpectedList))

/-- `all_good` after the reporting loops: it stays `True` unless some
category has missing tests or undocumented tests exist. -/
def allGood (impl : List String) : Bool :=
  ((categoriesStatus impl).all (fun s => s.2.missing.isEmpty))
    && (extraTests impl).isEmpty

/-- The machine-readable summary dictionary `report`.  `requirement_coverage_pct`
is a Python float; the quantities involved are small integers, so it is
modelled exactly as a rational. -/
structure Report where
  valid : Bool
  requirement_coverage_pct : ℚ
  expected_count : Nat
  implemented_count : Nat
  missing_count : Nat
  extra_count : Nat
  missing_tests : List String
  extra_tests : List String
  categories : List (String × CategoryStatus)
deriving Repr, DecidableEq

/-- `coverage_pct`: `100.0` in the pass branch, otherwise
`(len(implemented) - len(extra_tests)) / TOTAL_EXPECTED * 100`. -/
def coveragePct (impl : List String) : ℚ :=
  if allGood impl && impl.length == TOTAL_EXPECTED then 100
  else ((impl.length : ℚ) - ((extraTests impl).length : ℚ)) / (TOTAL_EXPECTED : ℚ) * 100

/-- The pure core of `validate_coverage`: the summary record built for a
given list of declared test names (`verbose` only changes printing, not
the record). -/
def validateCoverage (impl : List String) : Report :=
  { valid := allGood impl && impl.length == TOTAL_EXPECTED,
    requirement_coverage_pct := coveragePct impl,
    expected_count := TOTAL_EXPECTED,
    implemented_count := impl.length,
    missing_count := (missingTests impl).length,
    extra_count := (extraTests impl).length,
    missing_tests := missingTests impl,
    extra_tests := extraTests impl,
    categories := categoriesStatus impl }

/-- The four counts printed in the prose "Test Inventory" block
(`Expected`, `Implemented`, `Missing`, `Undocumented`), taken from the
`print` statements of `validate_coverage`. -/
structure ProseCounts where
  expectedShown : Nat
  implementedShown : Nat
  missingShown : Nat
  extraShown : Nat
deriving Repr, DecidableEq

/-- The counts the prose report prints for a given declared-name list. -/
def proseCounts (impl : List String) : ProseCounts :=
  { expectedShown := TOTAL_EXPECTED,
    implementedShown := impl.length,
    missingShown := (missingTests impl).length,
    extraShown := (extraTests impl).length }

/-- `find_implemented_tests` including its file-existence check: the
file system is abstracted as `Option (List Char)` (the content of
`app/tests/test_app.py` when it exists).  A missing file is a fatal exit
with the printed message and `sys.exit(1)`. -/
def findImplementedTestsChecked (fs : Option (List Char)) :
    Except (String × Nat) (List String) :=
  match fs with
  | none => Except.error ("Test file not found: app/tests/test_app.py", 1)
  | some content => Except.ok (findImplementedTests content)

/-- Running `validate_coverage` end to end: either a fatal error (message
and exit status, no summary record) or the summary record. -/
def runValidator (fs : Option (List Char)) : Except (String × Nat) Report :=
  match findImplementedTestsChecked fs with
  | Except.error e => Except.error e
  | Except.ok impl => Except.ok (validateCoverage impl)

/-- The process exit status of `main` (without `--json`): the fatal status
when the test file is missing, otherwise `0 if is_valid else 1`. -/
def mainExitCode (fs : Option (List Char)) : Nat :=
  match runValidator fs with
  | Except.error e => e.2
  | Except.ok r => if r.valid then 0 else 1

end Validator

namespace App

/-- JSON-style values appearing in response bodies and log records. -/
inductive JVal where
  | str (s : String)
  | num (n : Int)
  | rat (q : ℚ)
deriving Repr, DecidableEq

/-- First-match lookup in an association list (Python `d[k]` on the dicts
below, whose keys are kept unique by `dictInsert`). -/
def lookupKey (k : String) : List (String × JVal) → Option JVal
  | [] => none
  | (k', v) :: rest => if k' = k then some v else lookupKey k rest

/-- Python `d[k] = v` on a dict modelled as an association list whose
keys are unique: overwrite in place when the key exists, append at the
end otherwise (insertion order is preserved, as in a Python dict). -/
def dictInsert : List (String × JVal) → String → JVal → List (String × JVal)
  | [], k, v => [(k, v)]
  | p :: rest, k, v => if p.1 = k then (k, v) :: rest else p :: dictInsert rest k v

/-- Python `d.update(extras)`: insert the extra pairs left to right. -/
def dictUpdate (d : List (String × JVal)) (extras : List (String × JVal)) :
    List (String × JVal) :=
  extras.foldl (fun acc kv => dictInsert acc kv.1 kv.2) d

/-- `log_event`: the JSON object written to the logging sink.  `ts` is the
ISO-8601 timestamp string produced at call time; `extras` are the keyword
arguments (whose names Python guarantees distinct). -/
def log_event (ts : String) (event : String) (endpoint : String)
    (extras : List (String × JVal)) : List (String × JVal) :=
  dictUpdate
    [ ("timestamp", JVal.str ts),
      ("event", JVal.str event),
      ("endpoint", JVal.str endpoint) ]
    extras

/-- An HTTP response: status code, JSON body, and the extra headers the
handler sets explicitly on the response object. -/
structure Response where
  status : Nat
  body : List (String × JVal)
  headers : List (String × String)
deriving Repr, DecidableEq

/-- `request_count = 0` at process start. -/
def request_count_init : Nat := 0

/-- The `hello` handler for `/`: increments the counter, logs the
post-increment value, returns the greeting.  `method` and `remoteAddr`
come from the incoming request, `ts` is the log timestamp. -/
def hello (ts method remoteAddr : String) (count : Nat) :
    Nat × List (String × JVal) × Response :=
  let count' := count + 1
  (count',
   log_event ts "request" "/"
     [ ("method", JVal.str method),
       ("remote_addr", JVal.str remoteAddr),
       ("request_count", JVal.num (count' : Int)) ],
   { status := 200,
     body := [("message", JVal.str "Hello from Flask on Kubernetes (Minikube)!")],
     headers := [] })

/-- The three cache-suppression headers set by `/health` and `/ready`. -/
def cacheHeaders : List (String × String) :=
  [ ("Cache-Control", "no-cache, no-store, must-revalidate"),
    ("Pragma", "no-cache"),
    ("Expires", "0") ]

/-- The `health` handler for `/health`. -/
def health (ts : String) (count : Nat) :
    Nat × List (String × JVal) × Response :=
  (count,
   log_event ts "health_check" "/health" [("status", JVal.str "healthy")],
   { status := 200,
     body := [("status", JVal.str "healthy")],
     headers := cacheHeaders })

/-- The `ready` handler for `/ready`. -/
def ready (ts : String) (count : Nat) :
    Nat × List (String × JVal) × Response :=
  (count,
   log_event ts "readiness_check" "/ready" [("status", JVal.str "ready")],
   { status := 200,
     body := [("status", JVal.str "ready")],
     headers := cacheHeaders })

/-- `round(x, 2)`: times are modelled as exact rationals, so the rounding
to two decimal places is `round(100x)/100`. -/
def roundTo2 (q : ℚ) : ℚ :=
  ((round (q * 100) : ℤ) : ℚ) / 100

/-- `uptime_seconds = round(time.time() - app_start_time, 2)` as computed
by `metrics`, with `start` the startup instant and `now` the current time
in seconds. -/
def uptimeSeconds (start now : ℚ) : ℚ :=
  roundTo2 (now - start)

/-- The `metrics` handler for `/metrics`: read-only on the counter. -/
def metrics (ts : String) (start now : ℚ) (count : Nat) :
    Nat × List (String × JVal) × Response :=
  (count,
   log_event ts "metrics_request" "/metrics" [],
   { status := 200,
     body :=
      [ ("app", JVal.str "hello-flask"),
        ("version", JVal.str "1.0.0"),
        ("uptime_seconds", JVal.rat (uptimeSeconds start now)),
        ("request_count", JVal.num (count : Int)),
        ("timestamp", JVal.str ts),
        ("status", JVal.str "running") ],
     headers := [] })

/-- One incoming request, carrying the request-dependent data a handler
reads (log timestamp; method and remote address for `/`; the current
time for `/metrics`). -/
inductive Req where
  | root (ts method remoteAddr : String)
  | health (ts : String)
  | ready (ts : String)
  | metrics (ts : String) (now : ℚ)
deriving Repr

/-- Dispatch one request against the current counter value. -/
def step (start : ℚ) (count : Nat) : Req → Nat × List (String × JVal) × Response
  | Req.root ts m ra => hello ts m ra count
  | Req.health ts => health ts count
  | Req.ready ts => ready ts count
  | Req.metrics ts now => metrics ts start now count

/-- Run a sequence of requests sequentially (no interleaving), returning
the final counter value and the emitted log records in order. -/
def run (start : ℚ) (count : Nat) : List Req → Nat × List (List (String × JVal))
  | [] => (count, [])
  | r :: rs =>
    let out := step start count r
    let rest := run start out.1 rs
    (rest.1, out.2.1 :: rest.2)

end App

namespace Validator

lemma allExpected_nodup : allExpectedList.Nodup := by decide

lemma allExpected_length : allExpectedList.length = TOTAL_EXPECTED := by decide

lemma mem_allExpected_iff {e : String} :
    e ∈ allExpectedList ↔ ∃ c ∈ EXPECTED_TESTS, e ∈ c.2.tests := by
  simp only [allExpectedList, List.mem_flatten, List.mem_map]
  aesop

lemma categoryMissing_eq_nil_iff {impl : List String} {c : CategoryData} :
    categoryMissing impl c = [] ↔ ∀ t ∈ c.tests, t ∈ impl := by
  simp [categoryMissing, List.filter_eq_nil_iff]

lemma categoryImplemented_eq_expected_iff {impl : List String} {c : CategoryData} :
    (categoryImplemented impl c).length = categoryExpected c ↔
      categoryMissing impl c = [] := by
  unfold categoryImplemented categoryExpected categoryMissing
  rw [List.filter_length_eq_length, List.filter_eq_nil_iff]
  simp

lemma allGood_iff {impl : List String} :
    allGood impl = true ↔
      ((∀ c ∈ EXPECTED_TESTS, categoryMissing impl c.2 = []) ∧
        extraTests impl = []) := by
  simp [allGood, categoriesStatus, List.isEmpty_iff]
  intro _
  constructor
  · intro h a b hab
    exact h a _ a b hab rfl rfl
  · rintro h a b x y hxy rfl rfl
    exact h x y hxy

lemma missing_all_iff {impl : List String} :
    (∀ c ∈ EXPECTED_TESTS, categoryMissing impl c.2 = []) ↔
      ∀ e ∈ allExpectedList, e ∈ impl := by
  constructor
  · intro h e he
    rcases mem_allExpected_iff.mp he with ⟨c, hc, hec⟩
    exact (categoryMissing_eq_nil_iff.mp (h c hc)) e hec
  · intro h c hc
    exact categoryMissing_eq_nil_iff.mpr
      (fun t ht => h t (mem_allExpected_iff.mpr ⟨c, hc, ht⟩))

lemma extra_eq_nil_iff {impl : List String} :
    extraTests impl = [] ↔ ∀ x ∈ impl, x ∈ allExpectedList := by
  simp [extraTests, List.filter_eq_nil_iff]

/-- A declared-name list of the expected total length that contains every
expected name contains nothing else (pigeonhole over the 22 distinct
expected names). -/
lemma mem_allExpected_of_full {impl : List String}
    (hsub : ∀ e ∈ allExpectedList, e ∈ impl)
    (hlen : impl.length = TOTAL_EXPECTED) :
    ∀ x ∈ impl, x ∈ allExpectedList := by
  intro x hx
  have hsub' : allExpectedList.toFinset ⊆ impl.toFinset := by
    intro a ha
    exact List.mem_toFinset.mpr (hsub a (List.mem_toFinset.mp ha))
  have hcard : impl.toFinset.card ≤ allExpectedList.toFinset.card := by
    calc impl.toFinset.card ≤ impl.length := List.toFinset_card_le impl
      _ = TOTAL_EXPECTED := hlen
      _ = allExpectedList.length := allExpected_length.symm
      _ = allExpectedList.toFinset.card :=
          (List.toFinset_card_of_nodup allExpected_nodup).symm
  have heq : allExpectedList.toFinset = impl.toFinset :=
    Finset.eq_of_subset_of_card_le hsub' hcard
  exact List.mem_toFinset.mp (heq ▸ List.mem_toFinset.mpr hx)

lemma status_impl_eq_iff {impl : List String} :
    (∀ s ∈ categoriesStatus impl, s.2.implemented = s.2.expected) ↔
      (∀ c ∈ EXPECTED_TESTS, categoryMissing impl c.2 = []) := by
  simp only [categoriesStatus, List.mem_map]
  constructor
  · intro h c hc
    exact categoryImplemented_eq_expected_iff.mp (h _ ⟨c, hc, rfl⟩)
  · rintro h s ⟨c, hc, rfl⟩
    exact categoryImplemented_eq_expected_iff.mpr (h c hc)

lemma valid_eq_true_iff {impl : List String} :
    (validateCoverage impl).valid = true ↔
      ((∀ s ∈ categoriesStatus impl, s.2.implemented = s.2.expected) ∧
        impl.length = TOTAL_EXPECTED) := by
  show (allGood impl && impl.length == TOTAL_EXPECTED) = true ↔ _
  rw [Bool.and_eq_true, beq_iff_eq, allGood_iff, status_impl_eq_iff]
  constructor
  · rintro ⟨⟨hmiss, _⟩, hlen⟩
    exact ⟨hmiss, hlen⟩
  · rintro ⟨hmiss, hlen⟩
    refine ⟨⟨hmiss, ?_⟩, hlen⟩
    exact extra_eq_nil_iff.mpr
      (mem_allExpected_of_full (missing_all_iff.mp hmiss) hlen)

end Validator

namespace Validator

/-- C1: the summary's validity flag holds iff every category's
implemented count equals its expected count and the total number of
declared test names equals `TOTAL_EXPECTED`; `main` exits with status 0
exactly when validity holds and with status 1 otherwise. -/
theorem C1_validity_iff_and_exit_code (content : List Char) :
    ((validateCoverage (findImplementedTests content)).valid = true ↔
      ((∀ s ∈ categoriesStatus (findImplementedTests content),
          s.2.implemented = s.2.expected) ∧
        (findImplementedTests content).length = TOTAL_EXPECTED))
    ∧ mainExitCode (some content) =
        (if (validateCoverage (findImplementedTests content)).valid then 0 else 1) := by
  exact ⟨valid_eq_true_iff, rfl⟩

lemma mem_missingTests {impl : List String} {e : String}
    (he : e ∈ allExpectedList) (hne : e ∉ impl) : e ∈ missingTests impl := by
  rcases mem_allExpected_iff.mp he with ⟨c, hc, hec⟩
  simp only [missingTests, List.mem_flatten, List.mem_map]
  refine ⟨categoryMissing impl c.2, ⟨c, hc, rfl⟩, ?_⟩
  simp [categoryMissing, List.mem_filter, List.mem_dedup, hec, hne]

lemma valid_false_of_missing {impl : List String} {e : String}
    (he : e ∈ allExpectedList) (hne : e ∉ impl) :
    (validateCoverage impl).valid = false := by
  rw [Bool.eq_false_iff]
  intro hv
  exact hne (missing_all_iff.mp (status_impl_eq_iff.mp (valid_eq_true_iff.mp hv).1)
    e he)

lemma all_mem_of_valid {impl : List String}
    (hv : (validateCoverage impl).valid = true) :
    ∀ x ∈ impl, x ∈ allExpectedList := by
  rcases valid_eq_true_iff.mp hv with ⟨hstat, hlen⟩
  exact mem_allExpected_of_full (missing_all_iff.mp (status_impl_eq_iff.mp hstat)) hlen

lemma mem_extraTests {impl : List String} {x : String}
    (hx : x ∈ impl) (hne : x ∉ allExpectedList) : x ∈ extraTests impl := by
  simp [extraTests, List.mem_filter, hx, hne]

lemma valid_false_of_extra {impl : List String} {x : String}
    (hx : x ∈ impl) (hne : x ∉ allExpectedList) :
    (validateCoverage impl).valid = false := by
  rw [Bool.eq_false_iff]
  intro hv
  exact hne (all_mem_of_valid hv x hx)

lemma valid_true_of_perm {impl : List String}
    (hperm : impl.Perm allExpectedList) :
    (validateCoverage impl).valid = true := by
  refine valid_eq_true_iff.mpr ⟨?_, ?_⟩
  · exact status_impl_eq_iff.mpr (missing_all_iff.mpr
      (fun e he => hperm.mem_iff.mpr he))
  · rw [hperm.length_eq, allExpected_length]

lemma pct_eq_100_of_valid {impl : List String}
    (hv : (validateCoverage impl).valid = true) :
    (validateCoverage impl).requirement_coverage_pct = 100 := by
  have hb : (allGood impl && impl.length == TOTAL_EXPECTED) = true := hv
  show coveragePct impl = 100
  simp [coveragePct, hb]

/-- C3: if exactly one expected name is absent from the declared names it
lands in the missing list and validity fails; if exactly one declared
name is outside the expected table it lands in the extra list and
validity fails; and declared names matching the table exactly give
validity and 100% coverage. -/
theorem C3_missing_extra_exact (content : List Char) :
    (∀ e, e ∈ allExpectedList → e ∉ findImplementedTests content →
      (∀ e', e' ∈ allExpectedList → e' ≠ e → e' ∈ findImplementedTests content) →
      e ∈ (validateCoverage (findImplementedTests content)).missing_tests ∧
        (validateCoverage (findImplementedTests content)).valid = false)
    ∧ (∀ x, x ∈ findImplementedTests content → x ∉ allExpectedList →
        (∀ x', x' ∈ findImplementedTests content → x' ≠ x → x' ∈ allExpectedList) →
        x ∈ (validateCoverage (findImplementedTests content)).extra_tests ∧
          (validateCoverage (findImplementedTests content)).valid = false)
    ∧ ((findImplementedTests content).Perm allExpectedList →
        (validateCoverage (findImplementedTests content)).valid = true ∧
          (validateCoverage (findImplementedTests content)).requirement_coverage_pct
            = 100) := by
  refine ⟨fun e he hne _ => ⟨mem_missingTests he hne, valid_false_of_missing he hne⟩,
    fun x hx hne _ => ⟨mem_extraTests hx hne, valid_false_of_extra hx hne⟩,
    fun hperm => ⟨valid_true_of_perm hperm,
      pct_eq_100_of_valid (valid_true_of_perm hperm)⟩⟩

/-- A test file declaring exactly the expected inventory, one definition
per line; concrete input for the witnesses below. -/
def contentAll : List Char :=
  (String.intercalate "\n"
    (allExpectedList.map (fun t => "def " ++ t ++ "():"))).data

/-- `contentAll` with its first expected declaration removed. -/
def contentMissingOne : List Char :=
  (String.intercalate "\n"
    ((allExpectedList.drop 1).map (fun t => "def " ++ t ++ "():"))).data

/-- `contentAll` with one undocumented test appended. -/
def contentExtraOne : List Char :=
  (String.intercalate "\n"
    ((allExpectedList ++ ["test_extra_probe"]).map (fun t => "def " ++ t ++ "():"))).data

theorem C3_missing_extra_exact_witness :
    ("test_home_returns_200_ok" ∈
        (validateCoverage (findImplementedTests contentMissingOne)).missing_tests ∧
      (validateCoverage (findImplementedTests contentMissingOne)).valid = false)
    ∧ ("test_extra_probe" ∈
        (validateCoverage (findImplementedTests contentExtraOne)).extra_tests ∧
      (validateCoverage (findImplementedTests contentExtraOne)).valid = false)
    ∧ ((validateCoverage (findImplementedTests contentAll)).valid = true ∧
      (validateCoverage (findImplementedTests contentAll)).requirement_coverage_pct
        = 100) :=
  ⟨(C3_missing_extra_exact contentMissingOne).1 "test_home_returns_200_ok"
      (by decide) (by decide) (by decide),
   (C3_missing_extra_exact contentExtraOne).2.1 "test_extra_probe"
      (by decide) (by decide) (by decide),
   (C3_missing_extra_exact contentAll).2.2
      ((show findImplementedTests contentAll = allExpectedList by decide) ▸
        List.Perm.refl _)⟩

/-- C6: a missing test file is the one fatal path — an error value with
the printed message and exit status 1, producing no summary record —
while any existing file always yields a summary record, so missing or
extra tests surface only as validation failures inside it. -/
theorem C6_missing_file_fatal :
    (runValidator none =
        Except.error ("Test file not found: app/tests/test_app.py", 1)
      ∧ mainExitCode none = 1)
    ∧ ∀ content, runValidator (some content) =
        Except.ok (validateCoverage (findImplementedTests content)) :=
  ⟨⟨rfl, rfl⟩, fun _ => rfl⟩

/-- C8: the four counts shown in the prose "Test Inventory" block equal
the corresponding fields of the machine-readable summary record for the
same input. -/
theorem C8_prose_matches_summary (content : List Char) :
    (proseCounts (findImplementedTests content)).expectedShown =
        (validateCoverage (findImplementedTests content)).expected_count
    ∧ (proseCounts (findImplementedTests content)).implementedShown =
        (validateCoverage (findImplementedTests content)).implemented_count
    ∧ (proseCounts (findImplementedTests content)).missingShown =
        (validateCoverage (findImplementedTests content)).missing_count
    ∧ (proseCounts (findImplementedTests content)).extraShown =
        (validateCoverage (findImplementedTests content)).extra_count :=
  ⟨rfl, rfl, rfl, rfl⟩

/-- The number of lines of the file that declare the test name `x`: the
stripped lines starting with `def test_` whose extracted name is `x`. -/
def declCount (content : List Char) (x : String) : Nat :=
  (((splitOnChar '\n' content).map pyStrip).filter (fun line =>
    startsWithChars "def test_".data line
      && (String.mk (extractName line) == x))).length

/-- The extraction keeps one entry per declaring line: the multiplicity
of a name in `find_implemented_tests`'s result equals the number of
lines declaring it. -/
lemma count_findImplementedTests (content : List Char) (x : String) :
    (findImplementedTests content).count x = declCount content x := by
  unfold findImplementedTests declCount
  generalize (splitOnChar '\n' content).map pyStrip = lines
  induction lines with
  | nil => rfl
  | cons l ls ih =>
    simp only [List.filterMap_cons, List.filter_cons]
    by_cases h : startsWithChars "def test_".data l
    · by_cases h2 : String.mk (extractName l) = x
      · simp [h, h2, List.count_cons, ih]
      · simp [h, h2, List.count_cons, ih]
    · simp only [h, Bool.false_and, if_neg (Bool.false_ne_true), ih]

/-- Pigeonhole over the 22 distinct expected names: if every expected
name is declared and some expected name is declared at least twice, the
declared-name list is strictly longer than the expected total. -/
lemma length_gt_of_dup {impl : List String} {x : String}
    (h1 : ∀ e ∈ allExpectedList, e ∈ impl)
    (hxE : x ∈ allExpectedList)
    (h3 : 2 ≤ impl.count x) :
    TOTAL_EXPECTED < impl.length := by
  have hle : (allExpectedList : Multiset String) + {x} ≤ (impl : Multiset String) := by
    rw [Multiset.le_iff_count]
    intro a
    rw [Multiset.count_add, Multiset.coe_count, Multiset.coe_count,
      Multiset.count_singleton]
    by_cases hax : a = x
    · subst hax
      rw [List.count_eq_one_of_mem allExpected_nodup hxE, if_pos rfl]
      omega
    · rw [if_neg hax]
      by_cases haE : a ∈ allExpectedList
      · have h1' : 0 < impl.count a := List.count_pos_iff.mpr (h1 a haE)
        have h2' : allExpectedList.count a = 1 :=
          List.count_eq_one_of_mem allExpected_nodup haE
        omega
      · have h0 : allExpectedList.count a = 0 := List.count_eq_zero.mpr haE
        omega
  have hcard := Multiset.card_le_card hle
  rw [Multiset.card_add, Multiset.coe_card, Multiset.coe_card,
    Multiset.card_singleton, allExpected_length] at hcard
  omega

/-- C9: a file that declares every expected name, no undocumented name,
and some expected name on more than one line yields one extraction entry
per declaring line, a total implemented count above the expected total,
a failed validation, and a failure-branch coverage percentage above
100%. -/
theorem C9_duplicate_declaration_overcount (content : List Char) (x : String)
    (h1 : ∀ e ∈ allExpectedList, e ∈ findImplementedTests content)
    (h2 : ∀ y ∈ findImplementedTests content, y ∈ allExpectedList)
    (h3 : 2 ≤ declCount content x) :
    (findImplementedTests content).count x = declCount content x
    ∧ TOTAL_EXPECTED < (findImplementedTests content).length
    ∧ (validateCoverage (findImplementedTests content)).valid = false
    ∧ 100 < (validateCoverage (findImplementedTests content)).requirement_coverage_pct := by
  have hcount := count_findImplementedTests content x
  have h3' : 2 ≤ (findImplementedTests content).count x := by omega
  have hxI : x ∈ findImplementedTests content := List.count_pos_iff.mp (by omega)
  have hlen : TOTAL_EXPECTED < (findImplementedTests content).length :=
    length_gt_of_dup h1 (h2 x hxI) h3'
  have hbeq : ((findImplementedTests content).length == TOTAL_EXPECTED) = false := by
    rw [beq_eq_false_iff_ne]
    omega
  have hvalid : (validateCoverage (findImplementedTests content)).valid = false := by
    show (allGood (findImplementedTests content)
      && (findImplementedTests content).length == TOTAL_EXPECTED) = false
    rw [hbeq, Bool.and_false]
  refine ⟨hcount, hlen, hvalid, ?_⟩
  show 100 < coveragePct (findImplementedTests content)
  have hextra : extraTests (findImplementedTests content) = [] :=
    extra_eq_nil_iff.mpr h2
  unfold coveragePct
  rw [hbeq, Bool.and_false, if_neg (Bool.false_ne_true), hextra]
  have h22 : TOTAL_EXPECTED = 22 := by decide
  have hq : (22 : ℚ) < ((findImplementedTests content).length : ℚ) := by
    exact_mod_cast h22 ▸ hlen
  rw [h22]
  simp only [List.length_nil, Nat.cast_zero, sub_zero]
  rw [div_mul_eq_mul_div, lt_div_iff₀ (by norm_num : (0 : ℚ) < ((22 : ℕ) : ℚ))]
  push_cast at hq ⊢
  nlinarith

/-- `contentAll` with its first expected declaration repeated once. -/
def contentDupOne : List Char :=
  (String.intercalate "\n"
    ((allExpectedList ++ ["test_home_returns_200_ok"]).map
      (fun t => "def " ++ t ++ "():"))).data

theorem C9_duplicate_declaration_overcount_witness :
    (findImplementedTests contentDupOne).count "test_home_returns_200_ok" =
        declCount contentDupOne "test_home_returns_200_ok"
    ∧ TOTAL_EXPECTED < (findImplementedTests contentDupOne).length
    ∧ (validateCoverage (findImplementedTests contentDupOne)).valid = false
    ∧ 100 < (validateCoverage (findImplementedTests contentDupOne)).requirement_coverage_pct :=
  C9_duplicate_declaration_overcount contentDupOne "test_home_returns_200_ok"
    (by decide) (by decide) (by decide)

end Validator

namespace App

lemma lookup_dictInsert_self (d : List (String × JVal)) (k : String) (v : JVal) :
    lookupKey k (dictInsert d k v) = some v := by
  induction d with
  | nil => simp [dictInsert, lookupKey]
  | cons p rest ih =>
    unfold dictInsert
    by_cases h : p.1 = k
    · simp [h, lookupKey]
    · simp [h, lookupKey, ih]

lemma lookup_dictInsert_ne (d : List (String × JVal)) {k k' : String}
    (hne : k ≠ k') (v : JVal) :
    lookupKey k' (dictInsert d k v) = lookupKey k' d := by
  induction d with
  | nil => simp [dictInsert, lookupKey, hne]
  | cons p rest ih =>
    unfold dictInsert
    by_cases h : p.1 = k
    · simp [h, lookupKey, hne]
    · simp [lookupKey, h, ih]

lemma lookup_dictUpdate_not_mem {extras : List (String × JVal)} {k : String}
    (h : k ∉ extras.map Prod.fst) (d : List (String × JVal)) :
    lookupKey k (dictUpdate d extras) = lookupKey k d := by
  induction extras generalizing d with
  | nil => rfl
  | cons e es ih =>
    simp only [List.map_cons, List.mem_cons, not_or] at h
    show lookupKey k (dictUpdate (dictInsert d e.1 e.2) es) = _
    rw [ih h.2, lookup_dictInsert_ne _ (fun he => h.1 he.symm) _]

lemma lookup_dictUpdate_mem {extras : List (String × JVal)}
    (hnd : (extras.map Prod.fst).Nodup) {k : String} {v : JVal}
    (hmem : (k, v) ∈ extras) (d : List (String × JVal)) :
    lookupKey k (dictUpdate d extras) = some v := by
  induction extras generalizing d with
  | nil => cases hmem
  | cons e es ih =>
    rw [List.map_cons, List.nodup_cons] at hnd
    rcases List.mem_cons.mp hmem with he | hes
    · subst he
      show lookupKey k (dictUpdate (dictInsert d k v) es) = some v
      rw [lookup_dictUpdate_not_mem hnd.1, lookup_dictInsert_self]
    · exact ih hnd.2 hes _

lemma isSome_lookup_dictInsert {d : List (String × JVal)} {k' : String}
    (h : (lookupKey k' d).isSome = true) (k : String) (v : JVal) :
    (lookupKey k' (dictInsert d k v)).isSome = true := by
  by_cases hk : k = k'
  · subst hk
    rw [lookup_dictInsert_self]
    rfl
  · rw [lookup_dictInsert_ne _ hk]
    exact h

lemma isSome_lookup_dictUpdate (extras : List (String × JVal))
    {d : List (String × JVal)} {k' : String}
    (h : (lookupKey k' d).isSome = true) :
    (lookupKey k' (dictUpdate d extras)).isSome = true := by
  induction extras generalizing d with
  | nil => exact h
  | cons e es ih =>
    exact ih (isSome_lookup_dictInsert h e.1 e.2)

/-- C10: every emitted log object carries the keys `timestamp`, `event`
and `endpoint` and every extra keyword field; an extra field whose name
collides with a base key overwrites the base value. -/
theorem C10_log_event_merge (ts ev ep : String) (extras : List (String × JVal))
    (hnd : (extras.map Prod.fst).Nodup) :
    (lookupKey "timestamp" (log_event ts ev ep extras)).isSome = true
    ∧ (lookupKey "event" (log_event ts ev ep extras)).isSome = true
    ∧ (lookupKey "endpoint" (log_event ts ev ep extras)).isSome = true
    ∧ ∀ k v, (k, v) ∈ extras → lookupKey k (log_event ts ev ep extras) = some v := by
  refine ⟨isSome_lookup_dictUpdate extras rfl,
    isSome_lookup_dictUpdate extras rfl,
    isSome_lookup_dictUpdate extras rfl,
    fun k v hm => lookup_dictUpdate_mem hnd hm _⟩

/-- Concrete keyword fields for the witness: one overriding the base
`endpoint` key, one fresh. -/
def extrasProbe : List (String × JVal) :=
  [("endpoint", JVal.str "/override"), ("request_count", JVal.num 7)]

theorem C10_log_event_merge_witness :
    (lookupKey "timestamp"
        (log_event "2024-01-01T00:00:00+00:00" "request" "/" extrasProbe)).isSome = true
    ∧ lookupKey "endpoint"
        (log_event "2024-01-01T00:00:00+00:00" "request" "/" extrasProbe)
      = some (JVal.str "/override")
    ∧ lookupKey "request_count"
        (log_event "2024-01-01T00:00:00+00:00" "request" "/" extrasProbe)
      = some (JVal.num 7) :=
  ⟨(C10_log_event_merge "2024-01-01T00:00:00+00:00" "request" "/" extrasProbe
      (by decide)).1,
   (C10_log_event_merge "2024-01-01T00:00:00+00:00" "request" "/" extrasProbe
      (by decide)).2.2.2 "endpoint" (JVal.str "/override") (by decide),
   (C10_log_event_merge "2024-01-01T00:00:00+00:00" "request" "/" extrasProbe
      (by decide)).2.2.2 "request_count" (JVal.num 7) (by decide)⟩

lemma hello_log_request_count (ts m ra : String) (c : Nat) :
    lookupKey "request_count" (hello ts m ra c).2.1 =
      some (JVal.num ((c + 1 : Nat) : Int)) := rfl

lemma run_replicate_root (start : ℚ) (ts m ra : String) (n c : Nat) :
    run start c (List.replicate n (Req.root ts m ra)) =
      (c + n, (List.range n).map (fun i => (hello ts m ra (c + i)).2.1)) := by
  induction n generalizing c with
  | zero => simp [run]
  | succ n ih =>
    rw [List.replicate_succ]
    have hrun : run start c (Req.root ts m ra :: List.replicate n (Req.root ts m ra)) =
        ((run start (c + 1) (List.replicate n (Req.root ts m ra))).1,
         (hello ts m ra c).2.1 ::
           (run start (c + 1) (List.replicate n (Req.root ts m ra))).2) := rfl
    rw [hrun, ih (c + 1)]
    refine Prod.ext ?_ ?_
    · show c + 1 + n = c + (n + 1)
      omega
    · show (hello ts m ra c).2.1 ::
          (List.range n).map (fun i => (hello ts m ra (c + 1 + i)).2.1) =
        (List.range (n + 1)).map (fun i => (hello ts m ra (c + i)).2.1)
      rw [List.range_succ_eq_map, List.map_cons, List.map_map]
      refine congrArg₂ _ rfl ?_
      apply List.map_congr_left
      intro i _
      have hci : c + 1 + i = c + (i + 1) := by omega
      simp [Function.comp, hci]

/-- C2: the counter starts at 0, the greeting route increments it by
exactly one, the probe and metrics routes leave it unchanged, and over
any sequential run of greeting requests the log of the Nth request
reports the counter value N. -/
theorem C2_counter_counts_requests (start now : ℚ) (n : Nat) (ts m ra ts2 : String) :
    request_count_init = 0
    ∧ (∀ c, (step start c (Req.root ts m ra)).1 = c + 1)
    ∧ (∀ c, (step start c (Req.health ts2)).1 = c)
    ∧ (∀ c, (step start c (Req.ready ts2)).1 = c)
    ∧ (∀ c, (step start c (Req.metrics ts2 now)).1 = c)
    ∧ (run start request_count_init (List.replicate n (Req.root ts m ra))).2.map
        (lookupKey "request_count")
      = (List.range n).map (fun i => some (JVal.num ((i + 1 : Nat) : Int))) := by
  refine ⟨rfl, fun _ => rfl, fun _ => rfl, fun _ => rfl, fun _ => rfl, ?_⟩
  rw [show request_count_init = 0 from rfl, run_replicate_root, List.map_map]
  apply List.map_congr_left
  intro i _
  show lookupKey "request_count" (hello ts m ra (0 + i)).2.1 = _
  rw [hello_log_request_count]
  simp

/-- C4: `/health` and `/ready` always answer 200 with their fixed JSON
bodies, and both set exactly the three cache-suppression headers with
the documented values. -/
theorem C4_health_ready_responses (ts : String) (c : Nat) :
    (health ts c).2.2 =
      { status := 200,
        body := [("status", JVal.str "healthy")],
        headers :=
          [ ("Cache-Control", "no-cache, no-store, must-revalidate"),
            ("Pragma", "no-cache"),
            ("Expires", "0") ] }
    ∧ (ready ts c).2.2 =
      { status := 200,
        body := [("status", JVal.str "ready")],
        headers :=
          [ ("Cache-Control", "no-cache, no-store, must-revalidate"),
            ("Pragma", "no-cache"),
            ("Expires", "0") ] } :=
  ⟨rfl, rfl⟩

lemma roundTo2_nonneg {q : ℚ} (h : 0 ≤ q) : 0 ≤ roundTo2 q := by
  unfold roundTo2
  apply div_nonneg _ (by norm_num)
  have h1 : (0 : ℤ) ≤ round (q * 100) := by
    rw [round_eq]
    apply Int.floor_nonneg.mpr
    nlinarith
  exact_mod_cast h1

lemma roundTo2_mono {a b : ℚ} (h : a ≤ b) : roundTo2 a ≤ roundTo2 b := by
  unfold roundTo2
  have h1 : round (a * 100) ≤ round (b * 100) := by
    rw [round_eq, round_eq]
    apply Int.floor_mono
    linarith
  have h2 : ((round (a * 100) : ℤ) : ℚ) ≤ ((round (b * 100) : ℤ) : ℚ) := by
    exact_mod_cast h1
  exact (div_le_div_iff_of_pos_right (by norm_num)).mpr h2

/-- C5: the `uptime_seconds` field of `/metrics` is the elapsed time
since startup rounded to two decimals; it is non-negative once the
current time is at or after startup, and non-decreasing across
successive calls. -/
theorem C5_uptime_rounded_monotone (start now1 now2 : ℚ) (ts1 : String) (c1 : Nat)
    (h0 : start ≤ now1) (h12 : now1 ≤ now2) :
    lookupKey "uptime_seconds" (metrics ts1 start now1 c1).2.2.body
      = some (JVal.rat (roundTo2 (now1 - start)))
    ∧ 0 ≤ uptimeSeconds start now1
    ∧ uptimeSeconds start now1 ≤ uptimeSeconds start now2 :=
  ⟨rfl, roundTo2_nonneg (by linarith), roundTo2_mono (by linarith)⟩

theorem C5_uptime_rounded_monotone_witness :
    lookupKey "uptime_seconds" (metrics "T" 0 1 0).2.2.body
      = some (JVal.rat (roundTo2 (1 - 0)))
    ∧ 0 ≤ uptimeSeconds 0 1
    ∧ uptimeSeconds 0 1 ≤ uptimeSeconds 0 2 :=
  C5_uptime_rounded_monotone 0 1 2 "T" 0 zero_le_one one_le_two

/-- C7: `/health`, `/ready` and `/metrics` leave the request counter
exactly as it was. -/
theorem C7_probe_routes_preserve_counter (ts : String) (start now : ℚ) (c : Nat) :
    (health ts c).1 = c ∧ (ready ts c).1 = c ∧ (metrics ts start now c).1 = c :=
  ⟨rfl, rfl, rfl⟩

end App
